import Mathlib

/-!
Verification of the HelloVideo V4L2 capture core of wendy-agent.

The repository ships the C header `CLinuxVideo.h` (the `io_method`
enumeration and the eight `WENDY_VIDIOC_*` request-code constants); the
Device Session / Buffer Pool / Capture Loop behaviour is specified in the
accompanying design document.  The header is embedded directly below; the
behavioural components are modelled from the spec where so marked.
-/

namespace CLinuxVideo

/-- Embeds `enum io_method` from `CLinuxVideo.h`:
`IO_METHOD_READ, IO_METHOD_MMAP, IO_METHOD_USERPTR`. -/
inductive io_method where
  | IO_METHOD_READ
  | IO_METHOD_MMAP
  | IO_METHOD_USERPTR
deriving DecidableEq, Repr

/-- The C enumerator value of each `io_method` constant (C assigns default
values 0, 1, 2 in declaration order). -/
def io_method.toUInt : io_method → Nat
  | .IO_METHOD_READ => 0
  | .IO_METHOD_MMAP => 1
  | .IO_METHOD_USERPTR => 2

/-!
The `VIDIOC_*` request codes come from `<linux/videodev2.h>`, built with
the `_IOC` macro of `<asm-generic/ioctl.h>`:
`_IOC(dir,type,nr,size) = (dir << 30) | (type << 8) | (nr << 0) | (size << 16)`
with `_IOC_NONE = 0`, `_IOC_WRITE = 1`, `_IOC_READ = 2`, and type `'V' = 86`.
The payload struct sizes are platform-dependent (pointer width changes
`sizeof(struct v4l2_buffer)` etc.), so they are parameters of the model.
-/

def IOC_NONE : Nat := 0
def IOC_WRITE : Nat := 1
def IOC_READ : Nat := 2

/-- The `_IOC` macro of `<asm-generic/ioctl.h>`. -/
def IOC (dir ty nr size : Nat) : Nat :=
  (dir <<< 30) ||| (ty <<< 8) ||| (nr <<< 0) ||| (size <<< 16)

/-- Platform-dependent payload sizes used by the eight V4L2 request codes.
`sizeof(int)` is 4 on every Linux ABI, so it is not a parameter. -/
structure V4L2Platform where
  sizeof_capability : Nat
  sizeof_format : Nat
  sizeof_requestbuffers : Nat
  sizeof_buffer : Nat
deriving DecidableEq, Repr

/-- The struct sizes of the common 64-bit Linux ABI, used as a concrete
sample platform. -/
def linux64 : V4L2Platform :=
  { sizeof_capability := 104
    sizeof_format := 208
    sizeof_requestbuffers := 20
    sizeof_buffer := 88 }

def VIDIOC_QUERYCAP (p : V4L2Platform) : Nat :=
  IOC IOC_READ 86 0 p.sizeof_capability
def VIDIOC_S_FMT (p : V4L2Platform) : Nat :=
  IOC (IOC_READ ||| IOC_WRITE) 86 5 p.sizeof_format
def VIDIOC_REQBUFS (p : V4L2Platform) : Nat :=
  IOC (IOC_READ ||| IOC_WRITE) 86 8 p.sizeof_requestbuffers
def VIDIOC_QUERYBUF (p : V4L2Platform) : Nat :=
  IOC (IOC_READ ||| IOC_WRITE) 86 9 p.sizeof_buffer
def VIDIOC_QBUF (p : V4L2Platform) : Nat :=
  IOC (IOC_READ ||| IOC_WRITE) 86 15 p.sizeof_buffer
def VIDIOC_DQBUF (p : V4L2Platform) : Nat :=
  IOC (IOC_READ ||| IOC_WRITE) 86 17 p.sizeof_buffer
def VIDIOC_STREAMON (_p : V4L2Platform) : Nat :=
  IOC IOC_WRITE 86 18 4
def VIDIOC_STREAMOFF (_p : V4L2Platform) : Nat :=
  IOC IOC_WRITE 86 19 4

/-- Embeds `static const unsigned int WENDY_VIDIOC_QUERYBUF = VIDIOC_QUERYBUF;`. -/
def WENDY_VIDIOC_QUERYBUF (p : V4L2Platform) : Nat := VIDIOC_QUERYBUF p
/-- Embeds `static const unsigned int WENDY_VIDIOC_QBUF = VIDIOC_QBUF;`. -/
def WENDY_VIDIOC_QBUF (p : V4L2Platform) : Nat := VIDIOC_QBUF p
/-- Embeds `static const unsigned int WENDY_VIDIOC_DQBUF = VIDIOC_DQBUF;`. -/
def WENDY_VIDIOC_DQBUF (p : V4L2Platform) : Nat := VIDIOC_DQBUF p
/-- Embeds `static const unsigned int WENDY_VIDIOC_STREAMON = VIDIOC_STREAMON;`. -/
def WENDY_VIDIOC_STREAMON (p : V4L2Platform) : Nat := VIDIOC_STREAMON p
/-- Embeds `static const unsigned int WENDY_VIDIOC_STREAMOFF = VIDIOC_STREAMOFF;`. -/
def WENDY_VIDIOC_STREAMOFF (p : V4L2Platform) : Nat := VIDIOC_STREAMOFF p
/-- Embeds `static const unsigned int WENDY_VIDIOC_S_FMT = VIDIOC_S_FMT;`. -/
def WENDY_VIDIOC_S_FMT (p : V4L2Platform) : Nat := VIDIOC_S_FMT p
/-- Embeds `static const unsigned int WENDY_VIDIOC_REQBUFS = VIDIOC_REQBUFS;`. -/
def WENDY_VIDIOC_REQBUFS (p : V4L2Platform) : Nat := VIDIOC_REQBUFS p
/-- Embeds `static const unsigned int WENDY_VIDIOC_QUERYCAP = VIDIOC_QUERYCAP;`. -/
def WENDY_VIDIOC_QUERYCAP (p : V4L2Platform) : Nat := VIDIOC_QUERYCAP p

/-- The eight request-code constants defined by `CLinuxVideo.h`, in header
order. -/
def wendyRequestCodes (p : V4L2Platform) : List Nat :=
  [ WENDY_VIDIOC_QUERYBUF p, WENDY_VIDIOC_QBUF p, WENDY_VIDIOC_DQBUF p
  , WENDY_VIDIOC_STREAMON p, WENDY_VIDIOC_STREAMOFF p, WENDY_VIDIOC_S_FMT p
  , WENDY_VIDIOC_REQBUFS p, WENDY_VIDIOC_QUERYCAP p ]

end CLinuxVideo

namespace HelloVideo

open CLinuxVideo

/-- Modelled from the spec: the error taxonomy of §7 (the capture core's
Swift implementation is not under `src/`; only its C shim header is). -/
inductive CaptureError where
  | OpenError
  | UnsupportedDevice
  | FormatRejected
  | BufferAllocationFailed
  | StreamStartFailed
  | Timeout
  | DeviceError
  | EndOfStream
  | InvalidState
deriving DecidableEq, Repr

/-- Modelled from the spec: the named control operations of the Ioctl
Gateway contract (§6): query-capabilities, set-format, request-buffers,
query-buffer, enqueue-buffer, dequeue-buffer, stream-on, stream-off. -/
inductive IoctlOp where
  | querycap
  | s_fmt
  | reqbufs
  | querybuf
  | qbuf
  | dqbuf
  | streamon
  | streamoff
deriving DecidableEq, Repr

/-- Modelled from the spec: the request code the Ioctl Gateway sends for
each named operation — the corresponding `WENDY_VIDIOC_*` constant of
`CLinuxVideo.h`, passed opaquely. -/
def IoctlOp.code (p : V4L2Platform) : IoctlOp → Nat
  | .querycap => WENDY_VIDIOC_QUERYCAP p
  | .s_fmt => WENDY_VIDIOC_S_FMT p
  | .reqbufs => WENDY_VIDIOC_REQBUFS p
  | .querybuf => WENDY_VIDIOC_QUERYBUF p
  | .qbuf => WENDY_VIDIOC_QBUF p
  | .dqbuf => WENDY_VIDIOC_DQBUF p
  | .streamon => WENDY_VIDIOC_STREAMON p
  | .streamoff => WENDY_VIDIOC_STREAMOFF p

/-- Modelled from the spec: outcome of the readiness-wait service (§6);
interrupted waits are retried transparently inside the gateway (§7), so
only `ready` and `timedOut` reach the core. -/
inductive Readiness where
  | ready
  | timedOut
deriving DecidableEq, Repr

/-- Modelled from the spec: the state of one Device Session after
`start()` (§3, §4).  `transport` is fixed at construction; `enqueued`
holds the indices of buffers currently owned by the device; `outstanding`
is the at-most-one dequeued frame lease held by the caller (§3
single-buffer-in-flight); `streaming` records whether stream-on has been
issued and not yet stream-off; `active` records whether the Buffer Pool
exists (start has happened and stop has not). -/
structure Session where
  transport : io_method
  bufferCount : Nat
  enqueued : List Nat
  outstanding : Option Nat
  streaming : Bool
  active : Bool
deriving DecidableEq, Repr

/-- Modelled from the spec: which transports stream (issue stream-on/off
and the enqueue/dequeue cycle); `Read` does not (§4.1, §4.2). -/
def io_method.isStreaming : io_method → Bool
  | .IO_METHOD_READ => false
  | .IO_METHOD_MMAP => true
  | .IO_METHOD_USERPTR => true

/-- The allocated Buffer Descriptor indices `0..N-1` of the pool (§3). -/
def Session.allocated (s : Session) : List Nat := List.range s.bufferCount

/-- The currently-dequeued (owned-by-caller) buffer indices.  For the
`Read` transport there is no pool and a frame references no Buffer
Descriptor (§3, §4.2), so that set is empty. -/
def Session.dequeued (s : Session) : List Nat :=
  if io_method.isStreaming s.transport then s.outstanding.toList else []

/-- Result of one session operation: outcome, post-state, and the ioctl
operations issued to the device while executing it. -/
structure StepResult (α : Type) where
  result : Except CaptureError α
  state : Session
  trace : List IoctlOp
deriving Repr

/-- Modelled from the spec: `start(transport, bufferCount)` (§4.1, §4.2).
`MemoryMapped` requests `n` buffers, queries each, enqueues all `n`, then
issues stream-on; `UserPointer` does the same without the per-buffer
query; `Read` allocates no pool and issues no stream control. -/
def start (m : io_method) (n : Nat) : Session × List IoctlOp :=
  match m with
  | .IO_METHOD_READ =>
      ({ transport := m, bufferCount := 0, enqueued := [], outstanding := none
         streaming := false, active := true }, [])
  | .IO_METHOD_MMAP =>
      ({ transport := m, bufferCount := n, enqueued := List.range n
         outstanding := none, streaming := true, active := true },
       IoctlOp.reqbufs ::
         ((List.range n).map fun _ => IoctlOp.querybuf) ++
         ((List.range n).map fun _ => IoctlOp.qbuf) ++ [IoctlOp.streamon])
  | .IO_METHOD_USERPTR =>
      ({ transport := m, bufferCount := n, enqueued := List.range n
         outstanding := none, streaming := true, active := true },
       IoctlOp.reqbufs ::
         ((List.range n).map fun _ => IoctlOp.qbuf) ++ [IoctlOp.streamon])

/-- Modelled from the spec: `nextFrame(timeout)` (§4.3).  An outstanding
unreleased frame fails with `InvalidState` before touching the device; a
stopped session likewise.  For streaming transports the readiness wait may
expire (`Timeout`, recoverable, state unchanged); on readiness the device
reports the filled buffer's index (`pick`, the device's choice), which is
dequeued and leased to the caller.  The `Read` transport reads directly
into the scratch buffer with no ioctl. -/
def nextFrame (s : Session) (r : Readiness) (pick : Nat) : StepResult Nat :=
  if s.outstanding.isSome then ⟨.error .InvalidState, s, []⟩
  else if !s.active then ⟨.error .InvalidState, s, []⟩
  else match s.transport with
  | .IO_METHOD_READ => ⟨.ok 0, { s with outstanding := some 0 }, []⟩
  | _ =>
      if !s.streaming then ⟨.error .InvalidState, s, []⟩
      else match r with
      | .timedOut => ⟨.error .Timeout, s, []⟩
      | .ready =>
          if pick ∈ s.enqueued then
            ⟨.ok pick,
             { s with enqueued := s.enqueued.erase pick, outstanding := some pick },
             [.dqbuf]⟩
          else ⟨.error .DeviceError, s, [.dqbuf]⟩

/-- Modelled from the spec: `release(frame)` (§4.3, §4.2).  Releasing a
frame that is not the outstanding lease (already released, or never
acquired) fails with `InvalidState`; otherwise the streaming variants
re-enqueue the same buffer index and `Read`'s releaseFrame is a no-op. -/
def release (s : Session) (idx : Nat) : StepResult Unit :=
  match s.outstanding with
  | none => ⟨.error .InvalidState, s, []⟩
  | some i =>
      if i = idx then
        match s.transport with
        | .IO_METHOD_READ => ⟨.ok (), { s with outstanding := none }, []⟩
        | _ => ⟨.ok (), { s with outstanding := none, enqueued := s.enqueued ++ [idx] },
                [.qbuf]⟩
      else ⟨.error .InvalidState, s, []⟩

/-- Modelled from the spec: `stop()` (§4.1).  For streaming transports it
issues stream-off and releases the Buffer Pool; calling it when already
stopped is a no-op, not an error, and issues no second stream-off. -/
def stop (s : Session) : StepResult Unit :=
  if s.streaming then
    ⟨.ok (),
     { s with
         streaming := false
         active := false
         bufferCount := 0
         enqueued := []
         outstanding := none },
     [.streamoff]⟩
  else if s.active then
    ⟨.ok (),
     { s with
         active := false
         bufferCount := 0
         enqueued := []
         outstanding := none },
     []⟩
  else ⟨.ok (), s, []⟩

/-- An observable operation a caller can perform on a started session. -/
inductive Event where
  | nextFrame (r : Readiness) (pick : Nat)
  | release (idx : Nat)
  | stop
deriving DecidableEq, Repr

/-- The post-state of one caller operation. -/
def stepSession (s : Session) : Event → Session
  | .nextFrame r pick => (nextFrame s r pick).state
  | .release idx => (release s idx).state
  | .stop => (stop s).state

/-- The ioctl operations one caller operation issues. -/
def stepTrace (s : Session) : Event → List IoctlOp
  | .nextFrame r pick => (nextFrame s r pick).trace
  | .release idx => (release s idx).trace
  | .stop => (stop s).trace

/-- States reachable from `start(m, n)` by any sequence of caller
operations — the inspection points between operations. -/
inductive Reachable (m : io_method) (n : Nat) : Session → Prop where
  | start : Reachable m n (start m n).1
  | step {s : Session} (e : Event) : Reachable m n s → Reachable m n (stepSession s e)

/-- The common Buffer Pool invariant of §4.2: the enqueued
(owned-by-device) and dequeued (owned-by-caller) index sets are disjoint
and together are exactly the allocated indices `0..bufferCount-1`. -/
def inv (s : Session) : Prop :=
  s.enqueued.Nodup ∧
  s.enqueued.Disjoint s.dequeued ∧
  (∀ i, i < s.bufferCount ↔ (i ∈ s.enqueued ∨ i ∈ s.dequeued))

/-- Every allocated Buffer Descriptor index is in exactly one of the two
ownership sets — enqueued (owned-by-device) or dequeued (owned-by-caller)
— and the two sets are disjoint. -/
def bufferPartition (s : Session) : Prop :=
  (∀ i ∈ s.allocated,
      (i ∈ s.enqueued ∧ i ∉ s.dequeued) ∨ (i ∉ s.enqueued ∧ i ∈ s.dequeued)) ∧
  ∀ i, ¬(i ∈ s.enqueued ∧ i ∈ s.dequeued)

theorem inv_start (m : io_method) (n : Nat) : inv (start m n).1 := by
  cases m <;>
    simp [inv, start, Session.dequeued, io_method.isStreaming, List.Disjoint,
      List.nodup_range, List.mem_range]

theorem cov_erase {bc pick : Nat} {enq : List Nat} (hnd : enq.Nodup)
    (hp : pick ∈ enq) (hcov : ∀ i, i < bc ↔ i ∈ enq) (a : Nat) :
    a < bc ↔ a ∈ enq.erase pick ∨ a = pick := by
  rw [hcov a]
  constructor
  · intro hin
    by_cases hap : a = pick
    · exact Or.inr hap
    · exact Or.inl ((hnd.mem_erase_iff).2 ⟨hap, hin⟩)
  · rintro (hin | rfl)
    · exact ((hnd.mem_erase_iff).1 hin).2
    · exact hp

theorem inv_nextFrame {s : Session} (h : inv s) (r : Readiness) (pick : Nat) :
    inv (nextFrame s r pick).state := by
  obtain ⟨hnd, hdisj, hcov⟩ := h
  rcases s with ⟨t, bc, enq, outst, str, act⟩
  rcases outst with _ | i
  · rcases act with _ | _
    · simpa [nextFrame] using ⟨hnd, hdisj, hcov⟩
    · cases t
      · exact ⟨hnd, by simp [nextFrame, Session.dequeued, io_method.isStreaming],
          by simpa [nextFrame, Session.dequeued, io_method.isStreaming] using hcov⟩
      · rcases str with _ | _
        · simpa [nextFrame] using ⟨hnd, hdisj, hcov⟩
        · cases r
          · by_cases hp : pick ∈ enq
            · refine ⟨?_, ?_, ?_⟩
              · simpa [nextFrame, hp] using hnd.erase pick
              · intro a ha hb
                simp [nextFrame, hp, Session.dequeued, io_method.isStreaming] at ha hb
                exact absurd hb ((hnd.mem_erase_iff).1 ha).1
              · intro a
                have hcov2 : ∀ i, i < bc ↔ i ∈ enq := by
                  intro i
                  simpa [Session.dequeued, io_method.isStreaming] using hcov i
                simp only [nextFrame, hp, Session.dequeued, io_method.isStreaming]
                simp [hp]
                exact cov_erase hnd hp hcov2 a
            · simpa [nextFrame, hp] using ⟨hnd, hdisj, hcov⟩
          · simpa [nextFrame] using ⟨hnd, hdisj, hcov⟩
      · rcases str with _ | _
        · simpa [nextFrame] using ⟨hnd, hdisj, hcov⟩
        · cases r
          · by_cases hp : pick ∈ enq
            · refine ⟨?_, ?_, ?_⟩
              · simpa [nextFrame, hp] using hnd.erase pick
              · intro a ha hb
                simp [nextFrame, hp, Session.dequeued, io_method.isStreaming] at ha hb
                exact absurd hb ((hnd.mem_erase_iff).1 ha).1
              · intro a
                have hcov2 : ∀ i, i < bc ↔ i ∈ enq := by
                  intro i
                  simpa [Session.dequeued, io_method.isStreaming] using hcov i
                simp only [nextFrame, hp, Session.dequeued, io_method.isStreaming]
                simp [hp]
                exact cov_erase hnd hp hcov2 a
            · simpa [nextFrame, hp] using ⟨hnd, hdisj, hcov⟩
          · simpa [nextFrame] using ⟨hnd, hdisj, hcov⟩
  · simpa [nextFrame] using ⟨hnd, hdisj, hcov⟩

theorem inv_release {s : Session} (h : inv s) (idx : Nat) :
    inv (release s idx).state := by
  obtain ⟨hnd, hdisj, hcov⟩ := h
  rcases s with ⟨t, bc, enq, outst, str, act⟩
  rcases outst with _ | i
  · simpa [release] using ⟨hnd, hdisj, hcov⟩
  · by_cases hi : i = idx
    · subst hi
      cases t
      · refine ⟨?_, ?_, ?_⟩
        · simpa [release] using hnd
        · simp [release, Session.dequeued, io_method.isStreaming]
        · simpa [release, Session.dequeued, io_method.isStreaming] using hcov
      · have hnin : i ∉ enq := fun hin => by
          simpa [Session.dequeued, io_method.isStreaming] using hdisj hin
        refine ⟨?_, ?_, ?_⟩
        · simpa [release, List.nodup_append, hnin] using hnd
        · simp [release, Session.dequeued, io_method.isStreaming]
        · intro a
          simpa [release, Session.dequeued, io_method.isStreaming, or_comm]
            using hcov a
      · have hnin : i ∉ enq := fun hin => by
          simpa [Session.dequeued, io_method.isStreaming] using hdisj hin
        refine ⟨?_, ?_, ?_⟩
        · simpa [release, List.nodup_append, hnin] using hnd
        · simp [release, Session.dequeued, io_method.isStreaming]
        · intro a
          simpa [release, Session.dequeued, io_method.isStreaming, or_comm]
            using hcov a
    · simpa [release, hi] using ⟨hnd, hdisj, hcov⟩

theorem inv_stop {s : Session} (h : inv s) : inv (stop s).state := by
  obtain ⟨hnd, hdisj, hcov⟩ := h
  rcases s with ⟨t, bc, enq, outst, str, act⟩
  rcases str with _ | _
  · rcases act with _ | _
    · simpa [stop] using ⟨hnd, hdisj, hcov⟩
    · refine ⟨?_, ?_, ?_⟩ <;> simp [stop, Session.dequeued]
  · refine ⟨?_, ?_, ?_⟩ <;> simp [stop, Session.dequeued]

theorem inv_reachable {m : io_method} {n : Nat} {s : Session}
    (h : Reachable m n s) : inv s := by
  induction h with
  | start => exact inv_start m n
  | step e _ ih =>
      cases e with
      | nextFrame r pick => exact inv_nextFrame ih r pick
      | release idx => exact inv_release ih idx
      | stop => exact inv_stop ih

/-- C1: for every transport method and every state reachable after
`start()`, each allocated Buffer Descriptor index is in exactly one of the
two sets {enqueued (owned-by-device), dequeued (owned-by-caller)} — the
sets are disjoint and their union covers every allocated index — at every
inspection point between operations. -/
theorem reachable_bufferPartition {m : io_method} {n : Nat} {s : Session}
    (h : Reachable m n s) : bufferPartition s := by
  obtain ⟨hnd, hdisj, hcov⟩ := inv_reachable h
  refine ⟨?_, ?_⟩
  · intro i hi
    have hlt : i < s.bufferCount := by
      simpa [Session.allocated, List.mem_range] using hi
    rcases (hcov i).1 hlt with hin | hin
    · exact Or.inl ⟨hin, hdisj hin⟩
    · exact Or.inr ⟨fun he => hdisj he hin, hin⟩
  · intro i hc
    exact hdisj hc.1 hc.2

/-- Witness for C1: a concrete memory-mapped session with 4 buffers, after
one successful dequeue of buffer 2, satisfies the partition property. -/
theorem reachable_bufferPartition_witness :
    bufferPartition
      (stepSession (start io_method.IO_METHOD_MMAP 4).1
        (Event.nextFrame Readiness.ready 2)) :=
  reachable_bufferPartition
    (Reachable.step (Event.nextFrame Readiness.ready 2) Reachable.start)

theorem nextFrame_transport (s : Session) (r : Readiness) (pick : Nat) :
    (nextFrame s r pick).state.transport = s.transport := by
  rcases s with ⟨t, bc, enq, outst, str, act⟩
  rcases outst with _ | i <;> rcases act with _ | _ <;> cases t <;>
    rcases str with _ | _ <;> cases r <;>
      by_cases hp : pick ∈ enq <;> simp [nextFrame, hp]

theorem release_transport (s : Session) (idx : Nat) :
    (release s idx).state.transport = s.transport := by
  rcases s with ⟨t, bc, enq, outst, str, act⟩
  rcases outst with _ | i
  · simp [release]
  · by_cases hi : i = idx <;> cases t <;> simp [release, hi]

theorem stop_transport (s : Session) :
    (stop s).state.transport = s.transport := by
  rcases s with ⟨t, bc, enq, outst, str, act⟩
  rcases str with _ | _ <;> rcases act with _ | _ <;> simp [stop]

/-- C2: the transport-method type has exactly three values — direct read
(`IO_METHOD_READ`), memory-mapped (`IO_METHOD_MMAP`), and user-pointer
(`IO_METHOD_USERPTR`), pairwise distinct — and a session's transport is
fixed at construction: `start` sets it to the requested method and no
caller operation changes it afterwards. -/
theorem transport_exactly_three_and_fixed :
    (∀ m : io_method,
        m = io_method.IO_METHOD_READ ∨ m = io_method.IO_METHOD_MMAP ∨
          m = io_method.IO_METHOD_USERPTR) ∧
    (io_method.IO_METHOD_READ ≠ io_method.IO_METHOD_MMAP ∧
     io_method.IO_METHOD_READ ≠ io_method.IO_METHOD_USERPTR ∧
     io_method.IO_METHOD_MMAP ≠ io_method.IO_METHOD_USERPTR) ∧
    (∀ (m : io_method) (n : Nat), (start m n).1.transport = m) ∧
    (∀ (s : Session) (e : Event), (stepSession s e).transport = s.transport) := by
  refine ⟨fun m => by cases m <;> simp, by decide, fun m n => by cases m <;> rfl, ?_⟩
  intro s e
  cases e with
  | nextFrame r pick => exact nextFrame_transport s r pick
  | release idx => exact release_transport s idx
  | stop => exact stop_transport s

/-- C3: the ioctl surface consists of exactly the eight named control
operations (query-capabilities, set-format, request-buffers, query-buffer,
enqueue-buffer, dequeue-buffer, stream-on, stream-off); the request code
sent for each is one of the eight constants defined at the `CLinuxVideo.h`
boundary, and every ioctl the core issues — during `start` or during any
later caller operation — carries one of those eight codes. -/
theorem ioctl_surface (p : V4L2Platform) :
    (∀ op : IoctlOp,
        op = IoctlOp.querycap ∨ op = IoctlOp.s_fmt ∨ op = IoctlOp.reqbufs ∨
        op = IoctlOp.querybuf ∨ op = IoctlOp.qbuf ∨ op = IoctlOp.dqbuf ∨
        op = IoctlOp.streamon ∨ op = IoctlOp.streamoff) ∧
    (∀ op : IoctlOp, op.code p ∈ wendyRequestCodes p) ∧
    (∀ (m : io_method) (n : Nat) (op : IoctlOp),
        op ∈ (start m n).2 → op.code p ∈ wendyRequestCodes p) ∧
    (∀ (s : Session) (e : Event) (op : IoctlOp),
        op ∈ stepTrace s e → op.code p ∈ wendyRequestCodes p) := by
  refine ⟨fun op => by cases op <;> simp,
    fun op => by cases op <;> simp [IoctlOp.code, wendyRequestCodes],
    fun m n op _ => by cases op <;> simp [IoctlOp.code, wendyRequestCodes],
    fun s e op _ => by cases op <;> simp [IoctlOp.code, wendyRequestCodes]⟩

/-- Witness for C3: stream-on is issued by a concrete memory-mapped
`start` and stream-off by a concrete `stop`, and both codes are among the
eight defined constants (64-bit Linux struct sizes). -/
theorem ioctl_surface_witness :
    IoctlOp.streamon ∈ (start io_method.IO_METHOD_MMAP 2).2 ∧
    IoctlOp.code linux64 IoctlOp.streamon ∈ wendyRequestCodes linux64 ∧
    IoctlOp.streamoff ∈
      stepTrace (start io_method.IO_METHOD_MMAP 2).1 Event.stop ∧
    IoctlOp.code linux64 IoctlOp.streamoff ∈ wendyRequestCodes linux64 :=
  ⟨by decide,
   (ioctl_surface linux64).2.2.1 io_method.IO_METHOD_MMAP 2 IoctlOp.streamon
     (by decide),
   by decide,
   (ioctl_surface linux64).2.2.2 (start io_method.IO_METHOD_MMAP 2).1
     Event.stop IoctlOp.streamoff (by decide)⟩

/-- C4: with an outstanding unreleased frame, `nextFrame` fails with
`InvalidState` without any device interaction (empty ioctl trace) and
without state change; and releasing an already-released frame again fails
with `InvalidState`, likewise without device interaction or state
change. -/
theorem invalidState_discipline :
    (∀ (s : Session) (r : Readiness) (pick : Nat),
        s.outstanding.isSome = true →
        nextFrame s r pick = ⟨.error .InvalidState, s, []⟩) ∧
    (∀ (s : Session) (idx : Nat),
        (release s idx).result = .ok () →
        release (release s idx).state idx =
          ⟨.error .InvalidState, (release s idx).state, []⟩) := by
  constructor
  · intro s r pick h
    rcases s with ⟨t, bc, enq, outst, str, act⟩
    rcases outst with _ | i
    · simp at h
    · simp [nextFrame]
  · intro s idx h
    rcases s with ⟨t, bc, enq, outst, str, act⟩
    rcases outst with _ | i
    · simp [release] at h
    · by_cases hi : i = idx
      · subst hi
        cases t <;> simp [release]
      · simp [release, hi] at h

/-- Witness for C4: a concrete memory-mapped session holding the dequeued
frame 0 rejects a second `nextFrame`, and a second `release` of frame 0
after a successful one is rejected, both with `InvalidState`. -/
theorem invalidState_discipline_witness :
    (nextFrame
        (nextFrame (start io_method.IO_METHOD_MMAP 2).1 Readiness.ready 0).state
        Readiness.ready 1 =
      ⟨.error .InvalidState,
       (nextFrame (start io_method.IO_METHOD_MMAP 2).1 Readiness.ready 0).state, []⟩) ∧
    (release
        (release
          (nextFrame (start io_method.IO_METHOD_MMAP 2).1 Readiness.ready 0).state
          0).state 0 =
      ⟨.error .InvalidState,
       (release
          (nextFrame (start io_method.IO_METHOD_MMAP 2).1 Readiness.ready 0).state
          0).state, []⟩) :=
  ⟨invalidState_discipline.1 _ Readiness.ready 1 rfl,
   invalidState_discipline.2 _ 0 rfl⟩

/-- C5: `stop()` is idempotent — a second call in succession returns
success, issues no ioctl at all (in particular no second stream-off), and
leaves the state exactly as it was after the first call. -/
theorem stop_idempotent (s : Session) :
    stop (stop s).state = ⟨.ok (), (stop s).state, []⟩ := by
  rcases s with ⟨t, bc, enq, outst, str, act⟩
  rcases str with _ | _ <;> rcases act with _ | _ <;> simp [stop]

/-- Counterexample to C6 as stated: with the `Read` transport, a frame is
successfully acquired and released, yet its index 0 is not re-enqueued —
`Read`'s releaseFrame is a no-op and the enqueued set stays empty. -/
theorem release_read_not_reenqueued :
    (nextFrame (start io_method.IO_METHOD_READ 4).1 Readiness.ready 0).result =
      .ok 0 ∧
    (release (nextFrame (start io_method.IO_METHOD_READ 4).1 Readiness.ready 0).state
        0).result = .ok () ∧
    0 ∉ (release
          (nextFrame (start io_method.IO_METHOD_READ 4).1 Readiness.ready 0).state
          0).state.enqueued :=
  ⟨rfl, rfl, by simp [start, nextFrame, release]⟩

/-- C6 (amended to streaming transports): for the memory-mapped and
user-pointer transports, releasing a frame obtained from `nextFrame`
succeeds, re-enqueues that frame's buffer index (it is again a member of
the enqueued set), and a subsequent `nextFrame` can return the same
index. -/
theorem release_reenqueues (s : Session) (r : Readiness) (pick f : Nat)
    (hstr : io_method.isStreaming s.transport = true)
    (h : (nextFrame s r pick).result = .ok f) :
    (release (nextFrame s r pick).state f).result = .ok () ∧
    f ∈ (release (nextFrame s r pick).state f).state.enqueued ∧
    (nextFrame (release (nextFrame s r pick).state f).state Readiness.ready
        f).result = .ok f := by
  rcases s with ⟨t, bc, enq, outst, str, act⟩
  rcases outst with _ | i
  · rcases act with _ | _
    · simp [nextFrame] at h
    · cases t
      · simp [io_method.isStreaming] at hstr
      · rcases str with _ | _
        · simp [nextFrame] at h
        · cases r
          · by_cases hp : pick ∈ enq
            · simp [nextFrame, hp] at h
              subst h
              refine ⟨by simp [release, nextFrame, hp], by simp [release, nextFrame, hp], ?_⟩
              simp [release, nextFrame, hp]
            · simp [nextFrame, hp] at h
          · simp [nextFrame] at h
      · rcases str with _ | _
        · simp [nextFrame] at h
        · cases r
          · by_cases hp : pick ∈ enq
            · simp [nextFrame, hp] at h
              subst h
              refine ⟨by simp [release, nextFrame, hp], by simp [release, nextFrame, hp], ?_⟩
              simp [release, nextFrame, hp]
            · simp [nextFrame, hp] at h
          · simp [nextFrame] at h
  · simp [nextFrame] at h

/-- Witness for the amended C6: on a concrete memory-mapped session with 2
buffers, frame 0 is dequeued, released (so index 0 is back in the enqueued
set), and dequeued again. -/
theorem release_reenqueues_witness :
    (nextFrame (start io_method.IO_METHOD_MMAP 2).1 Readiness.ready 0).result =
      .ok 0 ∧
    ((release (nextFrame (start io_method.IO_METHOD_MMAP 2).1 Readiness.ready 0).state
        0).result = .ok () ∧
     0 ∈ (release
            (nextFrame (start io_method.IO_METHOD_MMAP 2).1 Readiness.ready 0).state
            0).state.enqueued ∧
     (nextFrame
        (release
          (nextFrame (start io_method.IO_METHOD_MMAP 2).1 Readiness.ready 0).state
          0).state Readiness.ready 0).result = .ok 0) :=
  ⟨rfl, release_reenqueues _ Readiness.ready 0 0 rfl rfl⟩

/-- C7: for a streaming-transport session in the Streaming state with no
outstanding frame, a readiness-wait expiry makes `nextFrame` return the
recoverable `Timeout` with no ioctl issued and the state unchanged, and a
subsequent `nextFrame` on that unchanged state can succeed. -/
theorem nextFrame_timeout_recoverable (s : Session) (pick pick2 : Nat)
    (hstr : io_method.isStreaming s.transport = true)
    (hstreaming : s.streaming = true)
    (hact : s.active = true)
    (hout : s.outstanding = none) :
    nextFrame s Readiness.timedOut pick = ⟨.error .Timeout, s, []⟩ ∧
    (pick2 ∈ s.enqueued →
      (nextFrame (nextFrame s Readiness.timedOut pick).state Readiness.ready
          pick2).result = .ok pick2) := by
  rcases s with ⟨t, bc, enq, outst, str, act⟩
  subst hout hstreaming hact
  cases t
  · simp [io_method.isStreaming] at hstr
  · exact ⟨by simp [nextFrame], fun hm => by simp [nextFrame, hm]⟩
  · exact ⟨by simp [nextFrame], fun hm => by simp [nextFrame, hm]⟩

/-- Witness for C7: a concrete user-pointer session with 3 buffers times
out with unchanged state, then successfully dequeues buffer 1. -/
theorem nextFrame_timeout_recoverable_witness :
    (nextFrame (start io_method.IO_METHOD_USERPTR 3).1 Readiness.timedOut 0 =
      ⟨.error .Timeout, (start io_method.IO_METHOD_USERPTR 3).1, []⟩) ∧
    (nextFrame
        (nextFrame (start io_method.IO_METHOD_USERPTR 3).1 Readiness.timedOut 0).state
        Readiness.ready 1).result = .ok 1 :=
  ⟨(nextFrame_timeout_recoverable (start io_method.IO_METHOD_USERPTR 3).1
      0 1 rfl rfl rfl rfl).1,
   (nextFrame_timeout_recoverable (start io_method.IO_METHOD_USERPTR 3).1
      0 1 rfl rfl rfl rfl).2 (by decide)⟩

end HelloVideo

namespace CLinuxVideo

/-- C8: `enum io_method` declares exactly three enumerators with the C
default values `IO_METHOD_READ = 0`, `IO_METHOD_MMAP = 1`,
`IO_METHOD_USERPTR = 2`, which are pairwise distinct. -/
theorem io_method_enumerators :
    (∀ m : io_method,
        m = io_method.IO_METHOD_READ ∨ m = io_method.IO_METHOD_MMAP ∨
          m = io_method.IO_METHOD_USERPTR) ∧
    io_method.IO_METHOD_READ.toUInt = 0 ∧
    io_method.IO_METHOD_MMAP.toUInt = 1 ∧
    io_method.IO_METHOD_USERPTR.toUInt = 2 ∧
    (io_method.IO_METHOD_READ.toUInt ≠ io_method.IO_METHOD_MMAP.toUInt ∧
     io_method.IO_METHOD_READ.toUInt ≠ io_method.IO_METHOD_USERPTR.toUInt ∧
     io_method.IO_METHOD_MMAP.toUInt ≠ io_method.IO_METHOD_USERPTR.toUInt) :=
  ⟨fun m => by cases m <;> simp, rfl, rfl, rfl, by decide⟩

/-- C9: each `WENDY_VIDIOC_*` constant equals the corresponding kernel
V4L2 request code with no transformation of the value, on every
platform. -/
theorem wendy_codes_alias_kernel (p : V4L2Platform) :
    WENDY_VIDIOC_QUERYBUF p = VIDIOC_QUERYBUF p ∧
    WENDY_VIDIOC_QBUF p = VIDIOC_QBUF p ∧
    WENDY_VIDIOC_DQBUF p = VIDIOC_DQBUF p ∧
    WENDY_VIDIOC_STREAMON p = VIDIOC_STREAMON p ∧
    WENDY_VIDIOC_STREAMOFF p = VIDIOC_STREAMOFF p ∧
    WENDY_VIDIOC_S_FMT p = VIDIOC_S_FMT p ∧
    WENDY_VIDIOC_REQBUFS p = VIDIOC_REQBUFS p ∧
    WENDY_VIDIOC_QUERYCAP p = VIDIOC_QUERYCAP p :=
  ⟨rfl, rfl, rfl, rfl, rfl, rfl, rfl, rfl⟩

theorem IOC_testBit_low (d t n s i : Nat) (hi : i < 8) :
    (IOC d t n s).testBit i = n.testBit i := by
  have h30 : ¬ 30 ≤ i := by omega
  have h16 : ¬ 16 ≤ i := by omega
  have h8 : ¬ 8 ≤ i := by omega
  simp [IOC, Nat.testBit_or, Nat.testBit_shiftLeft, h30, h16, h8]

theorem IOC_inj_nr {d1 t1 n1 s1 d2 t2 n2 s2 : Nat} (h1 : n1 < 256)
    (h2 : n2 < 256) (h : IOC d1 t1 n1 s1 = IOC d2 t2 n2 s2) : n1 = n2 := by
  apply Nat.eq_of_testBit_eq
  intro i
  by_cases hi : i < 8
  · have hc := congrArg (fun x => Nat.testBit x i) h
    simpa [IOC_testBit_low _ _ _ _ _ hi] using hc
  · have hle : (256 : Nat) ≤ 2 ^ i := by
      calc (256 : Nat) = 2 ^ 8 := by norm_num
        _ ≤ 2 ^ i := Nat.pow_le_pow_right (by norm_num) (by omega)
    have hb1 : n1.testBit i = false :=
      Nat.testBit_lt_two_pow (lt_of_lt_of_le h1 hle)
    have hb2 : n2.testBit i = false :=
      Nat.testBit_lt_two_pow (lt_of_lt_of_le h2 hle)
    simp [hb1, hb2]

/-- C10: the eight `WENDY_VIDIOC_*` request-code constants are pairwise
distinct on every platform (the `_IOC` number field differs), so no two
named operations — in particular enqueue-buffer vs dequeue-buffer, and
stream-on vs stream-off — denote the same device control code. -/
theorem wendy_codes_pairwise_distinct (p : V4L2Platform) :
    (wendyRequestCodes p).Nodup := by
  have hne : ∀ {d1 t1 n1 s1 d2 t2 n2 s2 : Nat}, n1 < 256 → n2 < 256 →
      n1 ≠ n2 → IOC d1 t1 n1 s1 ≠ IOC d2 t2 n2 s2 :=
    fun h1 h2 hn h => hn (IOC_inj_nr h1 h2 h)
  simp only [wendyRequestCodes, WENDY_VIDIOC_QUERYBUF, WENDY_VIDIOC_QBUF,
    WENDY_VIDIOC_DQBUF, WENDY_VIDIOC_STREAMON, WENDY_VIDIOC_STREAMOFF,
    WENDY_VIDIOC_S_FMT, WENDY_VIDIOC_REQBUFS, WENDY_VIDIOC_QUERYCAP,
    VIDIOC_QUERYBUF, VIDIOC_QBUF, VIDIOC_DQBUF, VIDIOC_STREAMON,
    VIDIOC_STREAMOFF, VIDIOC_S_FMT, VIDIOC_REQBUFS, VIDIOC_QUERYCAP,
    List.nodup_cons, List.mem_cons, List.not_mem_nil, List.mem_singleton,
    List.nodup_nil, not_or, and_true, or_false]
  repeat' apply And.intro
  all_goals first
    | exact not_false
    | (apply hne <;> norm_num)

end CLinuxVideo
